import Mathlib

/-!
Verification of the squid-exporter cache-object client
(`collector/client.go`) against its specification.

Embedding conventions:
* Go strings are Lean `String`s (lists of characters).  The report formats
  in play are ASCII, so Go's byte indices coincide with character indices
  and `strings.TrimSpace`'s Unicode space class is modelled by the ASCII
  space class.
* `strconv.ParseFloat(s, 64)` is modelled by `parseFloat?`, an exact
  rational parser for the decimal fragment of Go's float syntax
  (optional sign, digits with at most one dot, optional decimal exponent).
  IEEE-754 rounding is abstracted: values are exact rationals, which is
  faithful for token selection and parse success/failure, the properties
  at stake.  Hex floats, Inf/NaN and digit-separating underscores do not
  occur in the cache-manager reports and are outside the modelled grammar.
* Go's `(value, error)` returns become `Except String` (the error is the
  message built by the source) or explicit pairs.
* The network is abstracted by a `FetchOutcome` describing what the remote
  side does; the body byte stream is a `BodyStream`: its newline-terminated
  lines, the unterminated trailing bytes, and how reading ended
  (end-of-stream or an abnormal read error).
-/

/-- Go `unicode.IsSpace` restricted to ASCII, the alphabet of the
cache-manager reports. -/
def goIsSpace (c : Char) : Bool :=
  c = ' ' ∨ c = '\t' ∨ c = '\n' ∨ c = '\x0b' ∨ c = '\x0c' ∨ c = '\r'

/-- Go `strings.TrimSpace`: drop leading and trailing whitespace. -/
def trimSpace (s : String) : String :=
  ⟨((s.data.dropWhile goIsSpace).reverse.dropWhile goIsSpace).reverse⟩

/-- Go `strings.Index(s, c)` for a single-character pattern: index of the
first occurrence, `none` for Go's `-1`. -/
def indexOf (l : List Char) (c : Char) : Option Nat :=
  match l with
  | [] => none
  | x :: xs => if x = c then some 0 else (indexOf xs c).map (· + 1)

/-- Numeric value of a list of decimal digit characters. -/
def natOfDigits (l : List Char) : Nat :=
  l.foldl (fun a c => a * 10 + (c.toNat - 48)) 0

/-- Go `strconv.ParseFloat(s, 64)` on the decimal fragment of its grammar,
with the value kept as an exact rational (see the file header). -/
def parseFloat? (s : String) : Option ℚ :=
  let cs := s.data
  let signNeg : Bool := match cs with | '-' :: _ => true | _ => false
  let cs1 := match cs with | '+' :: r => r | '-' :: r => r | r => r
  let ip := cs1.takeWhile Char.isDigit
  let cs2 := cs1.dropWhile Char.isDigit
  let fp := match cs2 with
    | '.' :: r => r.takeWhile Char.isDigit
    | _ => []
  let cs3 := match cs2 with
    | '.' :: r => r.dropWhile Char.isDigit
    | r => r
  if ip.length + fp.length = 0 then none
  else
    let mantAbs : Int := Int.ofNat (natOfDigits (ip ++ fp))
    let mant : Int := if signNeg then -mantAbs else mantAbs
    match cs3 with
    | [] => some (mkRat mant (10 ^ fp.length))
    | e :: r =>
      if e = 'e' ∨ e = 'E' then
        let eNeg : Bool := match r with | '-' :: _ => true | _ => false
        let r1 := match r with | '+' :: r2 => r2 | '-' :: r2 => r2 | r2 => r2
        let ed := r1.takeWhile Char.isDigit
        if ed.length = 0 ∨ (r1.dropWhile Char.isDigit) ≠ [] then none
        else
          let ex := natOfDigits ed
          if eNeg then some (mkRat mant (10 ^ (fp.length + ex)))
          else some (mkRat (mant * (10 : Int) ^ ex) (10 ^ fp.length))
      else none

/-- `types.Counter`: one decoded metric record `{Key, Value}`. -/
structure Counter where
  Key : String
  Value : ℚ
deriving DecidableEq, Repr

instance {ε α : Type} [DecidableEq ε] [DecidableEq α] : DecidableEq (Except ε α) :=
  fun a b =>
    match a, b with
    | .ok x, .ok y =>
      if h : x = y then .isTrue (by rw [h]) else .isFalse (by intro hc; cases hc; exact h rfl)
    | .error x, .error y =>
      if h : x = y then .isTrue (by rw [h]) else .isFalse (by intro hc; cases hc; exact h rfl)
    | .ok _, .error _ => .isFalse (by intro hc; cases hc)
    | .error _, .ok _ => .isFalse (by intro hc; cases hc)

/-- Go `strings.Split(s, sep)` for a single-character separator: split
around each instance of the separator. -/
def splitOnChar (l : List Char) (c : Char) : List (List Char) :=
  match l with
  | [] => [[]]
  | x :: xs =>
    if x = c then [] :: splitOnChar xs c
    else
      match splitOnChar xs c with
      | h :: t => (x :: h) :: t
      | [] => [[x]]

/-- Go `strings.HasSuffix`. -/
def goHasSuffix (s suf : String) : Bool :=
  List.isSuffixOf suf.data s.data

/-- Go `strings.Split(value, " ")` followed by the source's
`len(slices) > 0` guard and `slices[0]` selection. -/
def headSplitSpace (value : String) : String :=
  match splitOnChar value.data ' ' with
  | s0 :: _ => ⟨s0⟩
  | [] => value

/-- `decodeCounterStrings` (collector/client.go): decode one line of the
`counters` report. -/
def decodeCounterStrings (line : String) : Except String Counter :=
  match indexOf line.data '=' with
  | some equal =>
    let key := trimSpace ⟨line.data.take equal⟩
    if 0 < key.length then
      let value := if equal < line.length then trimSpace ⟨line.data.drop (equal + 1)⟩ else ""
      let value := headSplitSpace value
      match parseFloat? value with
      | some i => .ok ⟨key, i⟩
      | none => .error ("counter - could not parse line: " ++ line)
    else .error ("counter - could not parse line: " ++ line)
  | none => .error ("counter - could not parse line: " ++ line)

/-- Go `strings.Replace(key, " ", "_", -1)`. -/
def replaceSpaceUnderscore (s : String) : String :=
  ⟨s.data.map (fun c => if c = ' ' then '_' else c)⟩

/-- Go `strings.Replace(key, "(", "", -1)` then `strings.Replace(key, ")", "", -1)`. -/
def removeParens (s : String) : String :=
  ⟨(s.data.filter (fun c => c ≠ '(')).filter (fun c => c ≠ ')')⟩

/-- `decodeServiceTimeStrings` (collector/client.go): decode one line of the
`service_times` report. -/
def decodeServiceTimeStrings (line : String) : Except String Counter :=
  if goHasSuffix line ":\n" then .ok ⟨"", 0⟩
  else
    match indexOf line.data ':' with
    | some equal =>
      let key0 := trimSpace ⟨line.data.take equal⟩
      if 0 < key0.length then
        let value0 := if equal < line.length then trimSpace ⟨line.data.drop (equal + 1)⟩ else ""
        let key1 := removeParens (replaceSpaceUnderscore key0)
        let kv : String × String :=
          match indexOf value0.data '%' with
          | some equalTwo =>
            let keyTwo := trimSpace ⟨value0.data.take equalTwo⟩
            if 0 < keyTwo.length then
              let v := if equalTwo < value0.length then
                  headSplitSpace (trimSpace ⟨value0.data.drop (equalTwo + 1)⟩)
                else value0
              (key1 ++ "_" ++ keyTwo, v)
            else (key1, value0)
          | none => (key1, value0)
        match parseFloat? kv.2 with
        | some v => .ok ⟨kv.1, v⟩
        | none => .error ("service times - could not parse line: " ++ line)
      else .error ("service times - could not parse line: " ++ line)
    | none => .error ("service times - could not parse line: " ++ line)

/-- One result of `bufio.Reader.ReadString('\n')` as observed by
`readLines`: the text read, paired with how the read ended (`none`:
a complete newline-terminated line; `some .eof`: end of stream; `some
(.err msg)`: an abnormal read error). -/
inductive ReadEnd where
  | eof
  | err (msg : String)
deriving DecidableEq, Repr

/-- `readLines` (collector/client.go): drain the reader, forwarding each
complete line; stop at end-of-stream, and stop (after logging) at any
other read error.  In both stopping cases the text returned together with
the terminating condition is discarded, never forwarded. -/
def readLines : List (String × Option ReadEnd) → List String
  | [] => []
  | (_, some .eof) :: _ => []
  | (_, some (.err _)) :: _ => []
  | (line, none) :: rest => line :: readLines rest

/-- A response body as a line stream: its newline-terminated lines, the
unterminated trailing bytes (`""` when the body ends at a newline), and
`abnormal = some msg` when reading ended with a non-EOF error. -/
structure BodyStream where
  lines : List String
  tail : String
  abnormal : Option String
deriving DecidableEq, Repr

/-- The sequence of `ReadString('\n')` results a `BodyStream` produces:
each terminated line with no error, then the unterminated tail together
with the terminating condition. -/
def streamReads (s : BodyStream) : List (String × Option ReadEnd) :=
  s.lines.map (fun l => (l, none)) ++
    [(s.tail, some (match s.abnormal with | some m => .err m | none => .eof))]

/-- The decode loop of `GetCounters`: append the record of every line that
decodes, skip (after logging) every line that does not. -/
def countersLoop : List String → List Counter
  | [] => []
  | l :: ls =>
    match decodeCounterStrings l with
    | .ok c => c :: countersLoop ls
    | .error _ => countersLoop ls

/-- The decode loop of `GetServiceTimes`: append the record of every line
that decodes to a record with a non-empty key, skip the rest. -/
def serviceTimesLoop : List String → List Counter
  | [] => []
  | l :: ls =>
    match decodeServiceTimeStrings l with
    | .ok s => if s.Key ≠ "" then s :: serviceTimesLoop ls else serviceTimesLoop ls
    | .error _ => serviceTimesLoop ls

/-- What the remote side does during one fetch, abstracting the network:
the dial, the optional proxy-protocol write or the response parse can
fail with an error message, or a response arrives with a status code and
a body stream. -/
inductive FetchOutcome where
  | connectFail (msg : String)
  | proxyWriteFail (msg : String)
  | respFail (msg : String)
  | resp (statusCode : Nat) (body : BodyStream)

/-- `readFromSquid` (collector/client.go): propagate connection, proxy
write and response-parse errors; reject any status code other than 200
with the source's error message; otherwise expose the body. -/
def readFromSquid (o : FetchOutcome) : Except String BodyStream :=
  match o with
  | .connectFail m => .error m
  | .proxyWriteFail m => .error m
  | .respFail m => .error m
  | .resp code body =>
    if code ≠ 200 then .error ("Non success code " ++ toString code ++ " while fetching metrics")
    else .ok body

/-- `GetCounters` (collector/client.go).  On a fetch error it returns no
records and the wrapped error.  Otherwise it runs the decode loop over the
produced lines and returns the records together with the outer error
variable, which is `nil` at that point: an abnormal stream end is logged
inside `readLines` but never returned. -/
def GetCounters (o : FetchOutcome) : Option (List Counter) × Option String :=
  match readFromSquid o with
  | .error e => (none, some ("error getting counters: " ++ e))
  | .ok body => (some (countersLoop (readLines (streamReads body))), none)

/-- `GetServiceTimes` (collector/client.go), same shape as `GetCounters`. -/
def GetServiceTimes (o : FetchOutcome) : Option (List Counter) × Option String :=
  match readFromSquid o with
  | .error e => (none, some ("error getting service times: " ++ e))
  | .ok body => (some (serviceTimesLoop (readLines (streamReads body))), none)

/-- UTF-8 encoding of one character, as Go's `[]byte(string)` produces. -/
def utf8Char (c : Char) : List Nat :=
  let n := c.toNat
  if n < 128 then [n]
  else if n < 2048 then [192 + n / 64, 128 + n % 64]
  else if n < 65536 then [224 + n / 4096, 128 + n / 64 % 64, 128 + n % 64]
  else [240 + n / 262144, 128 + n / 4096 % 64, 128 + n / 64 % 64, 128 + n % 64]

/-- Go `[]byte(s)`: the UTF-8 bytes of a string. -/
def goBytes (s : String) : List Nat :=
  (s.data.map utf8Char).flatten

/-- The RFC 4648 standard base64 alphabet used by Go's
`base64.StdEncoding`. -/
def base64Table : List Char :=
  "ABCDEFGHIJKLMNOPQRSTUVWXYZabcdefghijklmnopqrstuvwxyz0123456789+/".data

/-- Go `base64.StdEncoding.EncodeToString`: encode 3-byte groups into 4
alphabet characters, padding a final 1- or 2-byte group with `=`. -/
def base64Encode : List Nat → List Char
  | b1 :: b2 :: b3 :: rest =>
    let w := b1 * 65536 + b2 * 256 + b3
    base64Table.getD (w / 262144 % 64) 'A' :: base64Table.getD (w / 4096 % 64) 'A' ::
      base64Table.getD (w / 64 % 64) 'A' :: base64Table.getD (w % 64) 'A' :: base64Encode rest
  | [b1, b2] =>
    let w := b1 * 65536 + b2 * 256
    [base64Table.getD (w / 262144 % 64) 'A', base64Table.getD (w / 4096 % 64) 'A',
      base64Table.getD (w / 64 % 64) 'A', '=']
  | [b1] =>
    let w := b1 * 65536
    [base64Table.getD (w / 262144 % 64) 'A', base64Table.getD (w / 4096 % 64) 'A', '=', '=']
  | [] => []

/-- `base64.StdEncoding.EncodeToString` on the bytes of a string. -/
def base64StdEncode (bs : List Nat) : String :=
  ⟨base64Encode bs⟩

/-- `buildBasicAuthString` (collector/client.go). -/
def buildBasicAuthString (login password : String) : String :=
  if login.length = 0 then ""
  else base64StdEncode (goBytes (login ++ ":" ++ password))

/-- `fmt.Sprintf(requestProtocol, path)` with
`requestProtocol = "GET cache_object://localhost/%s HTTP/1.0"`. -/
def requestLine (path : String) : String :=
  "GET cache_object://localhost/" ++ path ++ " HTTP/1.0"

/-- The `rBody` slice built by `get` (collector/client.go): the fixed
request and header lines, with the proxy-authorization header appended
exactly when the auth token is non-empty, then `Accept: */*` and the
`"\r\n"` terminator element. -/
def rBody (path basicAuthString : String) : List String :=
  [requestLine path, "Host: localhost", "User-Agent: squidclient/3.5.12"] ++
  (if 0 < basicAuthString.length then ["Proxy-Authorization: Basic " ++ basicAuthString] else []) ++
  ["Accept: */*", "\r\n"]

/-- The request string written by `get`: `strings.Join(rBody, "\r\n")`.
The source writes it with `fmt.Fprintf(conn, request)`; for the requests
this client builds (endpoints `counters` and `service_times`, base64 auth
tokens) the string contains no `%` directive, so the bytes on the wire
are the string itself. -/
def getRequest (path basicAuthString : String) : String :=
  String.intercalate "\r\n" (rBody path basicAuthString)

/-- The spec's concrete decoder examples, evaluated on the embedding. -/
theorem decoder_examples :
    decodeCounterStrings "client_http.requests = 1234\n" =
      .ok ⟨"client_http.requests", 1234⟩ ∧
    decodeCounterStrings "sample_time = 1609459200.123456 seconds\n" =
      .ok ⟨"sample_time", mkRat 1609459200123456 1000000⟩ ∧
    decodeCounterStrings "not a counter line\n" =
      .error "counter - could not parse line: not a counter line\n" ∧
    decodeServiceTimeStrings "HTTP Requests (All):\n" = .ok ⟨"", 0⟩ ∧
    decodeServiceTimeStrings "HTTP Requests 5 min avg: 50% 0.0123\n" =
      .ok ⟨"HTTP_Requests_5_min_avg_50", mkRat 123 10000⟩ ∧
    decodeServiceTimeStrings "DNS Lookups: 0.0045\n" =
      .ok ⟨"DNS_Lookups", mkRat 45 10000⟩ ∧
    GetCounters (.resp 200 ⟨["a = 1\n", "b = 2\n"], "", none⟩) =
      (some [⟨"a", 1⟩, ⟨"b", 2⟩], none) := by
  decide

/-- The first whitespace-delimited token of a string: the claim-side
reading of "first whitespace-delimited token", with whitespace the class
`trimSpace` trims. -/
def firstWhitespaceToken (s : String) : String :=
  ⟨s.data.takeWhile (fun c => !goIsSpace c)⟩

theorem strLengthPos (s : String) (h : s ≠ "") : 0 < s.length := by
  cases s with
  | mk data =>
    cases data with
    | nil => exact absurd rfl h
    | cons c cs => simp [String.length]

theorem indexOf_lt_length {l : List Char} {c : Char} {i : Nat}
    (h : indexOf l c = some i) : i < l.length := by
  induction l generalizing i with
  | nil => simp [indexOf] at h
  | cons x xs ih =>
    by_cases hx : x = c
    · simp [indexOf, hx] at h
      simp only [List.length_cons]
      omega
    · simp [indexOf, hx] at h
      obtain ⟨j, hj, hji⟩ := h
      have := ih hj
      simp only [List.length_cons]
      omega

theorem readLines_reads (ls : List String) (t : String) (e : ReadEnd) :
    readLines (ls.map (fun l => (l, none)) ++ [(t, some e)]) = ls := by
  induction ls with
  | nil => cases e <;> simp [readLines]
  | cons h tl ih => simp [readLines, ih]

theorem readLines_streamReads (s : BodyStream) : readLines (streamReads s) = s.lines := by
  cases s with
  | mk ls t ab => cases ab <;> simp [streamReads, readLines_reads]

/-- C6: every input line that ends with a colon immediately followed by
the line terminator (a section header) makes `decodeServiceTimeStrings`
produce the empty record with no error, and the `GetServiceTimes` decode
loop appends nothing to the returned sequence for that line. -/
theorem serviceTimes_header_line (line : String) (rest : List String)
    (h : goHasSuffix line ":\n" = true) :
    decodeServiceTimeStrings line = .ok ⟨"", 0⟩ ∧
    serviceTimesLoop (line :: rest) = serviceTimesLoop rest := by
  constructor
  · simp [decodeServiceTimeStrings, h]
  · simp [serviceTimesLoop, decodeServiceTimeStrings, h]

/-- Witness for C6 at the spec's example header line. -/
theorem serviceTimes_header_line_witness :
    decodeServiceTimeStrings "HTTP Requests (All):\n" = .ok ⟨"", 0⟩ ∧
    serviceTimesLoop ["HTTP Requests (All):\n", "DNS Lookups: 0.0045\n"] =
      serviceTimesLoop ["DNS Lookups: 0.0045\n"] :=
  serviceTimes_header_line "HTTP Requests (All):\n" ["DNS Lookups: 0.0045\n"] (by decide)

/-- C7: a fetch whose parsed response has a status code other than 200
returns no records and the error carrying the observed code; nothing is
decoded, so no partial record sequence accompanies the error. -/
theorem fetch_non_success_code (code : Nat) (body : BodyStream) (h : code ≠ 200) :
    GetCounters (.resp code body) =
      (none, some ("error getting counters: " ++
        ("Non success code " ++ toString code ++ " while fetching metrics"))) ∧
    GetServiceTimes (.resp code body) =
      (none, some ("error getting service times: " ++
        ("Non success code " ++ toString code ++ " while fetching metrics"))) := by
  constructor <;> simp [GetCounters, GetServiceTimes, readFromSquid, h]

/-- Witness for C7 at status code 500. -/
theorem fetch_non_success_code_witness :
    GetCounters (.resp 500 ⟨["a = 1\n"], "", none⟩) =
      (none, some "error getting counters: Non success code 500 while fetching metrics") ∧
    GetServiceTimes (.resp 500 ⟨["a = 1\n"], "", none⟩) =
      (none, some "error getting service times: Non success code 500 while fetching metrics") :=
  fetch_non_success_code 500 ⟨["a = 1\n"], "", none⟩ (by decide)

/-- A malformed counters line: one `decodeCounterStrings` rejects. -/
def counterMalformed (l : String) : Bool :=
  (decodeCounterStrings l).toOption.isNone

/-- C2: the counters decode loop keeps exactly the lines that decode
(`N − K` records for `K` malformed lines out of `N`), in source order
(it is the order-preserving `filterMap` of the per-line decoder), and a
fetch over such a stream completes with those records and no error. -/
theorem countersLoop_count_and_order (lines : List String) :
    countersLoop lines = lines.filterMap (fun l => (decodeCounterStrings l).toOption) ∧
    (countersLoop lines).length = lines.length - lines.countP counterMalformed ∧
    GetCounters (.resp 200 ⟨lines, "", none⟩) = (some (countersLoop lines), none) := by
  have hsum : ∀ L : List String,
      (countersLoop L).length + L.countP counterMalformed = L.length := by
    intro L
    induction L with
    | nil => simp [countersLoop]
    | cons l ls ih =>
      cases h : decodeCounterStrings l with
      | ok c =>
        have hm : counterMalformed l = false := by
          simp [counterMalformed, h, Except.toOption]
        simp only [countersLoop, h, List.countP_cons, hm, List.length_cons,
          if_false, Bool.false_eq_true]
        omega
      | error e =>
        have hm : counterMalformed l = true := by
          simp [counterMalformed, h, Except.toOption]
        simp only [countersLoop, h, List.countP_cons, hm, List.length_cons, if_true]
        omega
  refine ⟨?_, ?_, ?_⟩
  · induction lines with
    | nil => simp [countersLoop]
    | cons l ls ih =>
      cases h : decodeCounterStrings l <;>
        simp [countersLoop, h, ih, List.filterMap_cons, Except.toOption]
  · have h1 := hsum lines
    have h2 := List.countP_le_length counterMalformed (l := lines)
    omega
  · simp [GetCounters, readFromSquid, readLines_streamReads]

/-- C9: the line producer never delivers unterminated trailing bytes: for
a body stream whose final bytes lack a newline, `readLines` forwards only
the terminated lines, so the trailing bytes contribute no record to
either decode loop. -/
theorem readLines_drops_unterminated_tail (ls : List String) (t : String)
    (ab : Option String) (h : t ≠ "") :
    readLines (streamReads ⟨ls, t, ab⟩) = ls ∧
    countersLoop (readLines (streamReads ⟨ls, t, ab⟩)) = countersLoop ls ∧
    serviceTimesLoop (readLines (streamReads ⟨ls, t, ab⟩)) = serviceTimesLoop ls := by
  refine ⟨readLines_streamReads _, ?_, ?_⟩ <;> rw [readLines_streamReads]

/-- Witness for C9: a stream ending in unterminated bytes `"b = 2"`. -/
theorem readLines_drops_unterminated_tail_witness :
    readLines (streamReads ⟨["a = 1\n"], "b = 2", none⟩) = ["a = 1\n"] ∧
    countersLoop (readLines (streamReads ⟨["a = 1\n"], "b = 2", none⟩)) =
      countersLoop ["a = 1\n"] ∧
    serviceTimesLoop (readLines (streamReads ⟨["a = 1\n"], "b = 2", none⟩)) =
      serviceTimesLoop ["a = 1\n"] :=
  readLines_drops_unterminated_tail ["a = 1\n"] "b = 2" none (by decide)

/-- C4 counterexample: a body stream that ends with an abnormal read
error after producing `"a = 1\n"`.  The fetch returns the record decoded
so far, but the accompanying error is `none`: the abnormal end is logged
inside `readLines` and never returned, so no non-nil trailing indication
exists, contrary to the claim. -/
theorem fetch_abnormal_end_counterexample :
    GetCounters (.resp 200 ⟨["a = 1\n"], "", some "connection reset"⟩) =
      (some [⟨"a", 1⟩], none) ∧
    GetServiceTimes (.resp 200 ⟨["DNS Lookups: 0.0045\n"], "", some "connection reset"⟩) =
      (some [⟨"DNS_Lookups", mkRat 45 10000⟩], none) := by
  constructor <;> decide

/-- C4 (amended): when the body line stream ends abnormally, `GetCounters`
and `GetServiceTimes` still return the records decoded from the lines
produced so far, but with a `nil` error: the abnormal end is only logged
by the line producer, never returned to the caller. -/
theorem fetch_abnormal_end_partial_result (body : BodyStream)
    (h : body.abnormal.isSome = true) :
    GetCounters (.resp 200 body) = (some (countersLoop body.lines), none) ∧
    GetServiceTimes (.resp 200 body) = (some (serviceTimesLoop body.lines), none) := by
  constructor <;> simp [GetCounters, GetServiceTimes, readFromSquid, readLines_streamReads]

/-- Witness for the amended C4 on a concrete abnormally-ended stream. -/
theorem fetch_abnormal_end_partial_result_witness :
    GetCounters (.resp 200 ⟨["a = 1\n", "junk\n", "b = 2\n"], "", some "timeout"⟩) =
      (some (countersLoop ["a = 1\n", "junk\n", "b = 2\n"]), none) ∧
    GetServiceTimes (.resp 200 ⟨["a = 1\n", "junk\n", "b = 2\n"], "", some "timeout"⟩) =
      (some (serviceTimesLoop ["a = 1\n", "junk\n", "b = 2\n"]), none) :=
  fetch_abnormal_end_partial_result ⟨["a = 1\n", "junk\n", "b = 2\n"], "", some "timeout"⟩
    (by decide)

/-- C5 counterexample: the line `"k = 1.5\ta\n"` has a non-empty trimmed
key, its trimmed value `"1.5\ta"` contains embedded whitespace (a tab),
and the first whitespace-delimited token `"1.5"` is numeric — yet the
decoder fails: the source splits the value on the space character only,
so the whole `"1.5\ta"` reaches the float parser and is rejected. -/
theorem decodeCounter_whitespace_token_counterexample :
    indexOf ("k = 1.5\ta\n").data '=' = some 2 ∧
    trimSpace ⟨("k = 1.5\ta\n").data.take 2⟩ = "k" ∧
    trimSpace ⟨("k = 1.5\ta\n").data.drop 3⟩ = "1.5\ta" ∧
    ("1.5\ta").data.any goIsSpace = true ∧
    firstWhitespaceToken "1.5\ta" = "1.5" ∧
    parseFloat? "1.5" = some (mkRat 3 2) ∧
    decodeCounterStrings "k = 1.5\ta\n" ≠ .ok ⟨"k", mkRat 3 2⟩ ∧
    decodeCounterStrings "k = 1.5\ta\n" =
      .error "counter - could not parse line: k = 1.5\ta\n" := by
  decide

/-- C5 (amended): for a counters line whose trimmed key is non-empty,
the parsed payload is the first SPACE-delimited token of the trimmed
value (the text up to the first space character; trailing annotations
after a space are discarded, but the split is on `' '` only, not on every
whitespace character); whenever that token parses, the decoder returns
the record with that key and value. -/
theorem decodeCounter_first_space_token (line : String) (i : Nat) (v : ℚ)
    (hi : indexOf line.data '=' = some i)
    (hkey : trimSpace ⟨line.data.take i⟩ ≠ "")
    (hv : parseFloat? (headSplitSpace (trimSpace ⟨line.data.drop (i + 1)⟩)) = some v) :
    decodeCounterStrings line = .ok ⟨trimSpace ⟨line.data.take i⟩, v⟩ := by
  have hkl : 0 < (trimSpace ⟨line.data.take i⟩).length := strLengthPos _ hkey
  have hil : i < line.length := indexOf_lt_length hi
  simp only [decodeCounterStrings, hi, if_pos hkl, if_pos hil, hv]

/-- Witness for the amended C5 at the spec's `sample_time` example: the
trailing word `seconds` is discarded and the first token is the value. -/
theorem decodeCounter_first_space_token_witness :
    decodeCounterStrings "sample_time = 1609459200.123456 seconds\n" =
      .ok ⟨trimSpace ⟨("sample_time = 1609459200.123456 seconds\n").data.take 12⟩,
        mkRat 1609459200123456 1000000⟩ :=
  decodeCounter_first_space_token "sample_time = 1609459200.123456 seconds\n" 12
    (mkRat 1609459200123456 1000000) (by decide) (by decide) (by decide)

/-- C3 counterexample: the metric line `"DNS Lookups: 0.0045 extra\n"`
has no `%` marker and its trimmed value's first whitespace-delimited
token `"0.0045"` is numeric, but the decoder fails: without a `%` marker
the source never token-splits the value, so the whole `"0.0045 extra"`
reaches the float parser and is rejected. -/
theorem decodeServiceTime_noPct_counterexample :
    goHasSuffix "DNS Lookups: 0.0045 extra\n" ":\n" = false ∧
    indexOf ("DNS Lookups: 0.0045 extra\n").data ':' = some 11 ∧
    trimSpace ⟨("DNS Lookups: 0.0045 extra\n").data.take 11⟩ = "DNS Lookups" ∧
    trimSpace ⟨("DNS Lookups: 0.0045 extra\n").data.drop 12⟩ = "0.0045 extra" ∧
    indexOf ("0.0045 extra").data '%' = none ∧
    firstWhitespaceToken "0.0045 extra" = "0.0045" ∧
    parseFloat? "0.0045" = some (mkRat 45 10000) ∧
    decodeServiceTimeStrings "DNS Lookups: 0.0045 extra\n" ≠
      .ok ⟨"DNS_Lookups", mkRat 45 10000⟩ ∧
    decodeServiceTimeStrings "DNS Lookups: 0.0045 extra\n" =
      .error "service times - could not parse line: DNS Lookups: 0.0045 extra\n" := by
  decide

/-- C3 (amended): for a service-times metric line (not a header) with a
non-empty trimmed label and no `%` in the trimmed value, the numeric
payload is the ENTIRE trimmed value, parsed against the base key: the
decoder succeeds exactly when the whole trimmed value is numeric, so it
fails when further text follows the first token. -/
theorem decodeServiceTime_noPct (line : String) (i : Nat) (v : ℚ)
    (hnl : goHasSuffix line "\n" = true)
    (hhdr : goHasSuffix line ":\n" = false)
    (hi : indexOf line.data ':' = some i)
    (hkey : trimSpace ⟨line.data.take i⟩ ≠ "")
    (hp : indexOf (trimSpace ⟨line.data.drop (i + 1)⟩).data '%' = none)
    (hv : parseFloat? (trimSpace ⟨line.data.drop (i + 1)⟩) = some v) :
    decodeServiceTimeStrings line =
      .ok ⟨removeParens (replaceSpaceUnderscore (trimSpace ⟨line.data.take i⟩)), v⟩ := by
  have hkl : 0 < (trimSpace ⟨line.data.take i⟩).length := strLengthPos _ hkey
  have hil : i < line.length := indexOf_lt_length hi
  simp only [decodeServiceTimeStrings, hhdr, Bool.false_eq_true, if_false, hi,
    if_pos hkl, if_pos hil, hp, hv]

/-- Witness for the amended C3 at the spec's example
`"DNS Lookups: 0.0045\n"`. -/
theorem decodeServiceTime_noPct_witness :
    decodeServiceTimeStrings "DNS Lookups: 0.0045\n" =
      .ok ⟨removeParens (replaceSpaceUnderscore
            (trimSpace ⟨("DNS Lookups: 0.0045\n").data.take 11⟩)),
        mkRat 45 10000⟩ :=
  decodeServiceTime_noPct "DNS Lookups: 0.0045\n" 11 (mkRat 45 10000)
    (by decide) (by decide) (by decide) (by decide) (by decide) (by decide)

/-- C1 counterexample: in the line `"A: 1% 2\t3\n"` the trimmed value
`"1% 2\t3"` carries the qualifier `"1"` before `%`, and the first
whitespace-delimited token of the re-trimmed text after `%` is `"2"`,
which is numeric — yet the decoder fails: the source splits on the space
character only, so the token it parses is `"2\t3"`, which is rejected. -/
theorem decodeServiceTime_pct_counterexample :
    goHasSuffix "A: 1% 2\t3\n" ":\n" = false ∧
    indexOf ("A: 1% 2\t3\n").data ':' = some 1 ∧
    trimSpace ⟨("A: 1% 2\t3\n").data.take 1⟩ = "A" ∧
    trimSpace ⟨("A: 1% 2\t3\n").data.drop 2⟩ = "1% 2\t3" ∧
    indexOf ("1% 2\t3").data '%' = some 1 ∧
    trimSpace ⟨("1% 2\t3").data.take 1⟩ = "1" ∧
    trimSpace ⟨("1% 2\t3").data.drop 2⟩ = "2\t3" ∧
    firstWhitespaceToken "2\t3" = "2" ∧
    parseFloat? "2" = some 2 ∧
    decodeServiceTimeStrings "A: 1% 2\t3\n" ≠ .ok ⟨"A_1", 2⟩ ∧
    decodeServiceTimeStrings "A: 1% 2\t3\n" =
      .error "service times - could not parse line: A: 1% 2\t3\n" := by
  decide

/-- C1 (amended): for a service-times metric line (not a header) with a
non-empty trimmed label whose trimmed value contains `%` with a non-empty
trimmed qualifier before it, the decoder returns the record keyed by the
cleaned label, `_`, and the qualifier, whose value is the float parse of
the first SPACE-delimited token (split on `' '` only, not on every
whitespace character) of the re-trimmed text after `%`, whenever that
token parses. -/
theorem decodeServiceTime_pct (line : String) (i j : Nat) (v : ℚ)
    (hnl : goHasSuffix line "\n" = true)
    (hhdr : goHasSuffix line ":\n" = false)
    (hi : indexOf line.data ':' = some i)
    (hkey : trimSpace ⟨line.data.take i⟩ ≠ "")
    (hj : indexOf (trimSpace ⟨line.data.drop (i + 1)⟩).data '%' = some j)
    (hq : trimSpace ⟨(trimSpace ⟨line.data.drop (i + 1)⟩).data.take j⟩ ≠ "")
    (hv : parseFloat? (headSplitSpace
        (trimSpace ⟨(trimSpace ⟨line.data.drop (i + 1)⟩).data.drop (j + 1)⟩)) = some v) :
    decodeServiceTimeStrings line =
      .ok ⟨removeParens (replaceSpaceUnderscore (trimSpace ⟨line.data.take i⟩)) ++ "_" ++
            trimSpace ⟨(trimSpace ⟨line.data.drop (i + 1)⟩).data.take j⟩, v⟩ := by
  have hkl : 0 < (trimSpace ⟨line.data.take i⟩).length := strLengthPos _ hkey
  have hil : i < line.length := indexOf_lt_length hi
  have hql : 0 < (trimSpace ⟨(trimSpace ⟨line.data.drop (i + 1)⟩).data.take j⟩).length :=
    strLengthPos _ hq
  have hjl : j < (trimSpace ⟨line.data.drop (i + 1)⟩).length := indexOf_lt_length hj
  simp only [decodeServiceTimeStrings, hhdr, Bool.false_eq_true, if_false, hi,
    if_pos hkl, if_pos hil, hj, if_pos hql, if_pos hjl, hv]

/-- Witness for the amended C1 at the spec's example
`"HTTP Requests 5 min avg: 50% 0.0123\n"`. -/
theorem decodeServiceTime_pct_witness :
    decodeServiceTimeStrings "HTTP Requests 5 min avg: 50% 0.0123\n" =
      .ok ⟨removeParens (replaceSpaceUnderscore
              (trimSpace ⟨("HTTP Requests 5 min avg: 50% 0.0123\n").data.take 23⟩)) ++ "_" ++
            trimSpace ⟨(trimSpace ⟨("HTTP Requests 5 min avg: 50% 0.0123\n").data.drop 24⟩).data.take 2⟩,
        mkRat 123 10000⟩ :=
  decodeServiceTime_pct "HTTP Requests 5 min avg: 50% 0.0123\n" 23 2 (mkRat 123 10000)
    (by decide) (by decide) (by decide) (by decide) (by decide) (by decide) (by decide)

/-- The request byte layout the specification describes, written from the
spec's words for comparison with the source's `getRequest`: the request
line, `Host`, `User-Agent`, the proxy-authorization header exactly when
the token is non-empty, and `Accept`, CRLF-joined with a blank-line
terminator. -/
def specRequestLines (endpoint authToken : String) : List String :=
  ["GET cache_object://localhost/" ++ endpoint ++ " HTTP/1.0",
   "Host: localhost", "User-Agent: squidclient/3.5.12"] ++
  (if authToken ≠ "" then ["Proxy-Authorization: Basic " ++ authToken] else []) ++
  ["Accept: */*"]

/-- Each line followed by CRLF. -/
def linesCRLF : List String → String
  | [] => ""
  | l :: ls => l ++ "\r\n" ++ linesCRLF ls

/-- The spec-side request bytes: every listed line terminated by CRLF,
then the final blank line (one more CRLF). -/
def specRequestBytes (endpoint authToken : String) : String :=
  linesCRLF (specRequestLines endpoint authToken) ++ "\r\n"

/-- C8: for every endpoint name and configured auth token, the request
string the source builds and writes is exactly the CRLF-joined sequence
the spec describes: request line, `Host: localhost`, the fixed
User-Agent, `Proxy-Authorization: Basic <token>` exactly when the token
is non-empty, `Accept: */*`, and a blank line terminator, in that
order. -/
theorem getRequest_matches_spec (endpoint authToken : String) :
    getRequest endpoint authToken = specRequestBytes endpoint authToken := by
  by_cases h : authToken = ""
  · subst h
    simp [getRequest, rBody, specRequestBytes, specRequestLines, linesCRLF,
      String.intercalate, String.intercalate.go, requestLine, String.append_assoc]
  · have hl : 0 < authToken.length := strLengthPos authToken h
    simp [getRequest, rBody, specRequestBytes, specRequestLines, linesCRLF,
      String.intercalate, String.intercalate.go, requestLine, if_pos hl, h,
      String.append_assoc]
    rfl

theorem utf8Char_ne_nil (c : Char) : utf8Char c ≠ [] := by
  simp only [utf8Char]
  split_ifs <;> simp

theorem goBytes_ne_nil (s : String) (h : s.data ≠ []) : goBytes s ≠ [] := by
  cases s with
  | mk d =>
    cases d with
    | nil => exact absurd rfl h
    | cons c cs =>
      have hc := utf8Char_ne_nil c
      simp only [goBytes, List.map_cons, List.flatten_cons, ne_eq, List.append_eq_nil]
      tauto

theorem base64Encode_ne_nil (l : List Nat) (h : l ≠ []) : base64Encode l ≠ [] := by
  match l with
  | [] => exact absurd rfl h
  | [b] => simp [base64Encode]
  | [b1, b2] => simp [base64Encode]
  | b1 :: b2 :: b3 :: rest => simp [base64Encode]

/-- C10: with an empty login the stored auth token is empty and the
request carries no proxy-authorization header, regardless of the
password; with a non-empty login the token is exactly the standard
base64 encoding of the bytes of `login ++ ":" ++ password`, and the
request carries `Proxy-Authorization: Basic <token>`. -/
theorem buildBasicAuthString_spec (login password endpoint : String) :
    (login = "" →
      buildBasicAuthString login password = "" ∧
      rBody endpoint (buildBasicAuthString login password) =
        [requestLine endpoint, "Host: localhost", "User-Agent: squidclient/3.5.12",
         "Accept: */*", "\r\n"]) ∧
    (login ≠ "" →
      buildBasicAuthString login password =
        base64StdEncode (goBytes (login ++ ":" ++ password)) ∧
      rBody endpoint (buildBasicAuthString login password) =
        [requestLine endpoint, "Host: localhost", "User-Agent: squidclient/3.5.12",
         "Proxy-Authorization: Basic " ++ buildBasicAuthString login password,
         "Accept: */*", "\r\n"]) := by
  constructor
  · intro h
    subst h
    exact ⟨rfl, by simp [rBody, buildBasicAuthString]⟩
  · intro h
    have hlen : ¬ login.length = 0 := by
      have := strLengthPos login h
      omega
    have hb : buildBasicAuthString login password =
        base64StdEncode (goBytes (login ++ ":" ++ password)) := by
      simp [buildBasicAuthString, hlen]
    refine ⟨hb, ?_⟩
    have hdata : (login ++ ":" ++ password).data ≠ [] := by
      simp [String.data_append]
    have hgb := goBytes_ne_nil _ hdata
    have hb64 := base64Encode_ne_nil _ hgb
    have htok : 0 < (buildBasicAuthString login password).length := by
      rw [hb]
      have : (base64StdEncode (goBytes (login ++ ":" ++ password))).length =
          (base64Encode (goBytes (login ++ ":" ++ password))).length := rfl
      rw [this]
      exact List.length_pos.mpr hb64
    simp [rBody, if_pos htok]

/-- Witness for C10 at a concrete login/password pair (and the empty
login with the same password). -/
theorem buildBasicAuthString_spec_witness :
    (buildBasicAuthString "" "pass" = "" ∧
      rBody "counters" (buildBasicAuthString "" "pass") =
        [requestLine "counters", "Host: localhost", "User-Agent: squidclient/3.5.12",
         "Accept: */*", "\r\n"]) ∧
    (buildBasicAuthString "user" "pass" =
        base64StdEncode (goBytes ("user" ++ ":" ++ "pass")) ∧
      rBody "counters" (buildBasicAuthString "user" "pass") =
        [requestLine "counters", "Host: localhost", "User-Agent: squidclient/3.5.12",
         "Proxy-Authorization: Basic " ++ buildBasicAuthString "user" "pass",
         "Accept: */*", "\r\n"]) :=
  ⟨(buildBasicAuthString_spec "" "pass" "counters").1 rfl,
   (buildBasicAuthString_spec "user" "pass" "counters").2 (by decide)⟩
